import Mathlib

/-!
Verification of the `train.py` script of the Profile repository.

The script is a straight-line sequence of library calls:

  data = pd.read_csv('sample.csv')
  X = data[['value', 'age']]
  y = data['name']
  poly_features = PolynomialFeatures(degree=2)
  X_poly = poly_features.fit_transform(X)
  model = LinearRegression()
  model.fit(X_poly, y)
  y_pred = model.predict(X_poly)
  print('Coefficients:', model.coef_)
  print('Intercept:', model.intercept_)

We embed the script twice: as a shallow straight-line function `run`
over an `Except` error monad, and as a deep step-list `program`
interpreted sequentially by `exec` over a program state `PState`
(holding the file system, the environment, stdout, and the script's
variables).  Third-party library calls (pandas, scikit-learn) are
modelled from their documented behaviour: `read_csv` yields a parsed
table or aborts, column selection raises a key error on a missing
column, `PolynomialFeatures(degree=2).fit_transform` produces all
monomials of total degree at most 2 in scikit-learn's term order, and
`LinearRegression.fit` (with its default `fit_intercept=True`) centers
the data, solves the least-squares problem on the centered data, and
recovers the intercept from the column means.  Numbers are rationals.
-/

namespace Train

/-- A parsed tabular file: a header of column names and rows of numeric
cells (the model of the in-memory table produced by `pd.read_csv`). -/
structure Table where
  header : List String
  rows : List (List ℚ)
deriving DecidableEq

/-- Errors raised by the modelled library calls: a read/parse failure in
`pd.read_csv`, a key error for a missing column, a fit failure on an
empty or mismatched design matrix, and a Python name error for use of
an unassigned variable (unreachable in the straight-line script). -/
inductive Err where
  | readError
  | keyError (col : String)
  | fitError
  | nameError
deriving DecidableEq

/-- Models `pd.read_csv('sample.csv')` from the spec: the file system
maps a path to its parsed table, `none` standing for a missing or
malformed file on which the library aborts with its default error. -/
def readCsv (fs : String → Option Table) : Except Err Table :=
  match fs "sample.csv" with
  | none => .error .readError
  | some t => .ok t

/-- Index of a column name in a header, counting from `i`. -/
def lookupCol : List String → Nat → String → Option Nat
  | [], _, _ => none
  | h :: hs, i, c => if h = c then some i else lookupCol hs (i + 1) c

/-- The cells of a named column, or `none` if the column is absent. -/
def colOf (t : Table) (c : String) : Option (List ℚ) :=
  (lookupCol t.header 0 c).map (fun i => t.rows.map (fun r => r.getD i 0))

/-- Models single-column selection `data[c]`: a missing column raises
the library's key error. -/
def getColE (t : Table) (c : String) : Except Err (List ℚ) :=
  match colOf t c with
  | none => .error (.keyError c)
  | some v => .ok v

/-- Models `data[['value', 'age']]`: column-wise selection of the two
feature columns, each row becoming the two-element list `[value, age]`.
A missing column raises the library's key error for it, `value` being
looked up first. -/
def selectXCols (t : Table) : Except Err (List (List ℚ)) :=
  match getColE t "value" with
  | .error e => .error e
  | .ok vals =>
    match getColE t "age" with
    | .error e => .error e
    | .ok ages => .ok (List.zipWith (fun v a => [v, a]) vals ages)

/-- One layer of `combinations_with_replacement`: pick the head as the
next (smallest-index) factor and combine with the shorter selections
given by `f`, or move past the head. -/
def cwrAux (f : List ℚ → List ℚ) : List ℚ → List ℚ
  | [] => []
  | x :: xs => (f (x :: xs)).map (fun p => x * p) ++ cwrAux f xs

/-- Products of all nondecreasing selections of `k` elements from `xs`,
in the order of Python's `combinations_with_replacement` (the term
order scikit-learn uses within one total degree). -/
def cwr : Nat → List ℚ → List ℚ
  | 0, _ => [1]
  | k + 1, xs => cwrAux (cwr k) xs

/-- One row of the polynomial expansion: all monomials in the row's
features of total degree 0 up to `d`, in scikit-learn's order. -/
def polyRow (d : Nat) (r : List ℚ) : List ℚ :=
  (List.range (d + 1)).flatMap (fun k => cwr k r)

/-- Models `PolynomialFeatures(degree=d).fit_transform`: expand every
row of the feature matrix. -/
def polyFitTransform (d : Nat) (X : List (List ℚ)) : List (List ℚ) :=
  X.map (polyRow d)

/-- Dot product of two equal-length vectors. -/
def dot (a b : List ℚ) : ℚ := (List.zipWith (fun x y => x * y) a b).sum

/-- Arithmetic mean of a list (0 on the empty list). -/
def mean (l : List ℚ) : ℚ := l.sum / (l.length : ℚ)

/-- Matrix-times-matrix on row-major lists of rows. -/
def matMul (A B : List (List ℚ)) : List (List ℚ) :=
  A.map (fun r => (List.transpose B).map (fun c => dot r c))

/-- Matrix-times-vector on row-major lists of rows. -/
def matVec (A : List (List ℚ)) (v : List ℚ) : List ℚ :=
  A.map (fun r => dot r v)

/-- Subtract the pivot row `p`, scaled so as to zero the leading entry
of `r`, from `r`, and drop the (now zero) leading entry. -/
def elimRow (p r : List ℚ) : List ℚ :=
  (List.zipWith (fun x y => x - (r.headD 0 / p.headD 0) * y) r p).drop 1

/-- Back-substitution step: solve the pivot equation `p` for its
leading variable given the values `xs` of the remaining variables. -/
def backSub (p : List ℚ) (xs : List ℚ) : ℚ :=
  ((p.drop 1).getLastD 0 - dot (p.drop 1).dropLast xs) / p.headD 0

/-- Gaussian elimination on an augmented system with `n` unknowns,
assigning 0 to free variables; on the (always consistent) normal
equations this returns a least-squares solution.  The result always has
length `n`. -/
def elim : Nat → List (List ℚ) → List ℚ
  | 0, _ => []
  | n + 1, rows =>
    match rows.find? (fun r => decide (r.headD 0 ≠ 0)) with
    | none => 0 :: elim n (rows.map (fun r => r.drop 1))
    | some p =>
      let xs := elim n (rows.map (fun r => elimRow p r))
      backSub p xs :: xs

/-- The fitted parameters of the linear model: `coef_` and
`intercept_`. -/
structure Model where
  coef : List ℚ
  intercept : ℚ
deriving DecidableEq

/-- Models `LinearRegression().fit(X, y)` with the default
`fit_intercept=True` from the spec: the library aborts on an empty
design matrix or a sample-count mismatch; otherwise it centers the
columns of `X` and the target `y`, solves the least-squares problem on
the centered data via the normal equations, and sets
`intercept_ = mean y - coef ⬝ column means`. -/
def linRegFit (X : List (List ℚ)) (y : List ℚ) : Except Err Model :=
  if X.length = 0 ∨ X.length ≠ y.length then .error .fitError
  else
    let ms := (List.transpose X).map mean
    let Xc := X.map (fun r => List.zipWith (fun a b => a - b) r ms)
    let ybar := mean y
    let yc := y.map (fun v => v - ybar)
    let n := (X.headD []).length
    let A := matMul (List.transpose Xc) Xc
    let b := matVec (List.transpose Xc) yc
    let aug := List.zipWith (fun row bi => row ++ [bi]) A b
    let coef := elim n aug
    .ok (Model.mk coef (ybar - dot coef ms))

/-- Models `model.predict(X)`: the affine map given by the fitted
coefficients and intercept, applied to every row. -/
def linRegPredict (m : Model) (X : List (List ℚ)) : List ℚ :=
  X.map (fun r => dot m.coef r + m.intercept)

/-- The first printed line, `print('Coefficients:', model.coef_)`. -/
def coefLine (m : Model) : String :=
  "Coefficients: " ++ toString m.coef

/-- The second printed line, `print('Intercept:', model.intercept_)`. -/
def interceptLine (m : Model) : String :=
  "Intercept: " ++ toString m.intercept

/-- Shallow embedding of the observable behaviour of `train.py`: the
straight-line sequence of library calls, propagating the first library
error and printing the two result lines.  (The unused `y_pred`
assignment has no observable part here; it is carried by the step-list
embedding `program` below and related to `run` in the claims.) -/
def run (fs : String → Option Table) : Except Err (List String) :=
  match readCsv fs with
  | .error e => .error e
  | .ok data =>
    match selectXCols data with
    | .error e => .error e
    | .ok X =>
      match getColE data "name" with
      | .error e => .error e
      | .ok y =>
        match linRegFit (polyFitTransform 2 X) y with
        | .error e => .error e
        | .ok model => .ok [coefLine model, interceptLine model]

/-- The statements of `train.py`, one constructor per executable line
(the two constructor-only lines `PolynomialFeatures(degree=2)` and
`LinearRegression()` are folded into the transform and fit steps whose
objects they build). -/
inductive Step where
  | load
  | extractX
  | extractY
  | transform
  | fit
  | predict
  | printCoef
  | printIntercept
deriving DecidableEq

/-- The script as a step sequence, in source order. -/
def program : List Step :=
  [.load, .extractX, .extractY, .transform, .fit, .predict,
   .printCoef, .printIntercept]

/-- The script with the `y_pred = model.predict(X_poly)` line removed. -/
def programNoPredict : List Step :=
  [.load, .extractX, .extractY, .transform, .fit,
   .printCoef, .printIntercept]

/-- The interpreter state: the file system and process environment (the
world outside the script), the lines written to standard output so far,
and the script's variables, `none` before assignment. -/
structure PState where
  fs : String → Option Table
  env : String → Option String
  out : List String
  data : Option Table
  X : Option (List (List ℚ))
  y : Option (List ℚ)
  Xpoly : Option (List (List ℚ))
  model : Option Model
  ypred : Option (List ℚ)

/-- Effect of one statement on the state: each step reads the variables
it needs (an unassigned variable is a Python name error, unreachable in
the straight-line program), calls the modelled library routine, and
stores the result; the print steps append one line to stdout. -/
def execStep : Step → PState → Except Err PState
  | .load, st =>
    match readCsv st.fs with
    | .error e => .error e
    | .ok t => .ok { st with data := some t }
  | .extractX, st =>
    match st.data with
    | none => .error .nameError
    | some t =>
      match selectXCols t with
      | .error e => .error e
      | .ok X => .ok { st with X := some X }
  | .extractY, st =>
    match st.data with
    | none => .error .nameError
    | some t =>
      match getColE t "name" with
      | .error e => .error e
      | .ok y => .ok { st with y := some y }
  | .transform, st =>
    match st.X with
    | none => .error .nameError
    | some X => .ok { st with Xpoly := some (polyFitTransform 2 X) }
  | .fit, st =>
    match st.Xpoly, st.y with
    | some Xp, some y =>
      match linRegFit Xp y with
      | .error e => .error e
      | .ok m => .ok { st with model := some m }
    | _, _ => .error .nameError
  | .predict, st =>
    match st.model, st.Xpoly with
    | some m, some Xp => .ok { st with ypred := some (linRegPredict m Xp) }
    | _, _ => .error .nameError
  | .printCoef, st =>
    match st.model with
    | none => .error .nameError
    | some m => .ok { st with out := st.out ++ [coefLine m] }
  | .printIntercept, st =>
    match st.model with
    | none => .error .nameError
    | some m => .ok { st with out := st.out ++ [interceptLine m] }

/-- Sequential execution of a step list: run the steps strictly in
order, stop at the first error.  Returns the executed steps (the trace)
together with the final state or the propagated library error. -/
def exec : List Step → PState → List Step × Except Err PState
  | [], st => ([], .ok st)
  | s :: rest, st =>
    match execStep s st with
    | .error e => ([s], .error e)
    | .ok st2 =>
      match exec rest st2 with
      | (tr, r) => (s :: tr, r)

/-- The state at process start: nothing written, no variable assigned. -/
def initState (fs : String → Option Table) (env : String → Option String) :
    PState :=
  { fs := fs, env := env, out := [], data := none, X := none, y := none,
    Xpoly := none, model := none, ypred := none }

/-- The observable result of a run: the stdout lines on success, the
aborting library error otherwise. -/
def outputOf (r : Except Err PState) : Except Err (List String) :=
  match r with
  | .error e => .error e
  | .ok st => .ok st.out

/-- The fitted model held in a final state, if the run succeeded. -/
def finalModel (r : Except Err PState) : Option Model :=
  match r with
  | .error _ => none
  | .ok st => st.model

/-- The expanded feature matrix held in a final state, if the run
succeeded. -/
def finalXpoly (r : Except Err PState) : Option (List (List ℚ)) :=
  match r with
  | .error _ => none
  | .ok st => st.Xpoly

/-- The final state of a successful run, as a function of the
intermediate library results. -/
def finalState (fs : String → Option Table) (env : String → Option String)
    (t : Table) (X : List (List ℚ)) (y : List ℚ) (m : Model) : PState :=
  { fs := fs, env := env,
    out := [coefLine m, interceptLine m],
    data := some t, X := some X, y := some y,
    Xpoly := some (polyFitTransform 2 X), model := some m,
    ypred := some (linRegPredict m (polyFitTransform 2 X)) }

/-- Closed-form view of running the whole script from the start: the
trace and outcome are determined by the four fallible library calls,
executed strictly in source order. -/
lemma exec_program (fs : String → Option Table)
    (e : String → Option String) :
    exec program (initState fs e) =
      match readCsv fs with
      | .error er => ([Step.load], .error er)
      | .ok t =>
        match selectXCols t with
        | .error er => ([Step.load, Step.extractX], .error er)
        | .ok X =>
          match getColE t "name" with
          | .error er =>
            ([Step.load, Step.extractX, Step.extractY], .error er)
          | .ok y =>
            match linRegFit (polyFitTransform 2 X) y with
            | .error er =>
              ([Step.load, Step.extractX, Step.extractY, Step.transform,
                Step.fit], .error er)
            | .ok m => (program, .ok (finalState fs e t X y m)) := by
  cases hr : readCsv fs with
  | error er => simp [program, exec, execStep, initState, hr]
  | ok t =>
    cases hx : selectXCols t with
    | error er => simp [program, exec, execStep, initState, hr, hx]
    | ok X =>
      cases hy : getColE t "name" with
      | error er => simp [program, exec, execStep, initState, hr, hx, hy]
      | ok y =>
        cases hf : linRegFit (polyFitTransform 2 X) y with
        | error er =>
          simp [program, exec, execStep, initState, hr, hx, hy, hf]
        | ok m =>
          simp [program, exec, execStep, initState, finalState,
            hr, hx, hy, hf]

/-- The same closed-form view for the script with the predict line
removed: identical trace prefix and outcome, only the `ypred` variable
is left unassigned. -/
lemma exec_programNoPredict (fs : String → Option Table)
    (e : String → Option String) :
    exec programNoPredict (initState fs e) =
      match readCsv fs with
      | .error er => ([Step.load], .error er)
      | .ok t =>
        match selectXCols t with
        | .error er => ([Step.load, Step.extractX], .error er)
        | .ok X =>
          match getColE t "name" with
          | .error er =>
            ([Step.load, Step.extractX, Step.extractY], .error er)
          | .ok y =>
            match linRegFit (polyFitTransform 2 X) y with
            | .error er =>
              ([Step.load, Step.extractX, Step.extractY, Step.transform,
                Step.fit], .error er)
            | .ok m =>
              (programNoPredict,
               .ok { finalState fs e t X y m with ypred := none }) := by
  cases hr : readCsv fs with
  | error er => simp [programNoPredict, exec, execStep, initState, hr]
  | ok t =>
    cases hx : selectXCols t with
    | error er => simp [programNoPredict, exec, execStep, initState, hr, hx]
    | ok X =>
      cases hy : getColE t "name" with
      | error er =>
        simp [programNoPredict, exec, execStep, initState, hr, hx, hy]
      | ok y =>
        cases hf : linRegFit (polyFitTransform 2 X) y with
        | error er =>
          simp [programNoPredict, exec, execStep, initState, hr, hx, hy, hf]
        | ok m =>
          simp [programNoPredict, exec, execStep, initState, finalState,
            hr, hx, hy, hf]

/-- The shallow embedding computes the output of the step-sequence
interpretation. -/
lemma run_eq_outputOf (fs : String → Option Table)
    (e : String → Option String) :
    run fs = outputOf (exec program (initState fs e)).2 := by
  rw [exec_program]
  cases hr : readCsv fs with
  | error er => simp [run, outputOf, hr]
  | ok t =>
    cases hx : selectXCols t with
    | error er => simp [run, outputOf, hr, hx]
    | ok X =>
      cases hy : getColE t "name" with
      | error er => simp [run, outputOf, hr, hx, hy]
      | ok y =>
        cases hf : linRegFit (polyFitTransform 2 X) y with
        | error er => simp [run, outputOf, hr, hx, hy, hf]
        | ok m => simp [run, outputOf, finalState, hr, hx, hy, hf]

/-- Gaussian elimination always returns one value per unknown. -/
lemma elim_length (n : Nat) (rows : List (List ℚ)) :
    (elim n rows).length = n := by
  induction n generalizing rows with
  | zero => rfl
  | succ n ih =>
    unfold elim
    cases rows.find? (fun r => decide (r.headD 0 ≠ 0)) with
    | none => simp [ih]
    | some p => simp [ih]

/-- Column lookup fails exactly on absent names. -/
lemma lookupCol_eq_none {hs : List String} {i : Nat} {c : String} :
    lookupCol hs i c = none ↔ c ∉ hs := by
  induction hs generalizing i with
  | nil => simp [lookupCol]
  | cons h hs ih =>
    by_cases hc : h = c
    · simp [lookupCol, hc]
    · simp [lookupCol, hc, ih, Ne.symm hc]

/-- Selecting an absent column raises the key error for it. -/
lemma getColE_missing {t : Table} {c : String} (h : c ∉ t.header) :
    getColE t c = .error (.keyError c) := by
  simp [getColE, colOf, lookupCol_eq_none.mpr h]

/-- Selecting a present column succeeds. -/
lemma getColE_present {t : Table} {c : String} (h : c ∈ t.header) :
    ∃ v, getColE t c = .ok v := by
  cases hl : lookupCol t.header 0 c with
  | none => exact absurd h (lookupCol_eq_none.mp hl)
  | some i =>
    exact ⟨t.rows.map (fun r => r.getD i 0), by simp [getColE, colOf, hl]⟩

/-- Degree-2 expansion of a two-feature row, written out: constant,
value, age, value², value·age, age², in scikit-learn's order. -/
lemma polyRow_pair (v a : ℚ) :
    polyRow 2 [v, a] = [1, v, a, v * v, v * a, a * a] := by
  have h : polyRow 2 [v, a]
      = [1, v * 1, a * 1, v * (v * 1), v * (a * 1), a * (a * 1)] := rfl
  simp [h, mul_one]

/-- Every row of the selected feature matrix is a two-element
`[value, age]` list. -/
lemma mem_zipWith_pair {vs ages r : List ℚ}
    (h : r ∈ List.zipWith (fun v a => [v, a]) vs ages) :
    ∃ v a, r = [v, a] := by
  induction vs generalizing ages with
  | nil => simp at h
  | cons x xs ih =>
    cases ages with
    | nil => simp at h
    | cons b bs =>
      simp only [List.zipWith_cons_cons, List.mem_cons] at h
      rcases h with h | h
      · exact ⟨x, b, h⟩
      · exact ih h

/-- A successful fit requires at least one sample and returns one
coefficient per column of the design matrix. -/
lemma linRegFit_ok {X : List (List ℚ)} {y : List ℚ} {m : Model}
    (h : linRegFit X y = .ok m) :
    X ≠ [] ∧ m.coef.length = (X.headD []).length := by
  unfold linRegFit at h
  split at h
  · simp at h
  · next hcond =>
    cases h
    refine ⟨fun hX => hcond ?_, by simp [elim_length]⟩
    left
    simp [hX]

/-- A file system whose `sample.csv` parses to `t` and which has no
other files. -/
def fsOf (t : Table) : String → Option Table :=
  fun p => if p = "sample.csv" then some t else none

/-- A one-row table with all three required columns. -/
def sampleTable : Table := ⟨["value", "age", "name"], [[1, 2, 3]]⟩

/-- The file system holding the one-row sample table. -/
def sampleFS : String → Option Table := fsOf sampleTable

/-- A file system with no readable `sample.csv`. -/
def badFS : String → Option Table := fun _ => none

/-- Tables each missing one required column. -/
def tableNoValue : Table := ⟨["age", "name"], [[2, 3]]⟩

/-- Table missing the `age` column. -/
def tableNoAge : Table := ⟨["value", "name"], [[1, 3]]⟩

/-- Table missing the `name` column. -/
def tableNoName : Table := ⟨["value", "age"], [[1, 2]]⟩

/-- An empty process environment. -/
def emptyEnv : String → Option String := fun _ => none

/-- A nonempty process environment, to witness env-independence. -/
def markedEnv : String → Option String := fun _ => some "1"

/-- C6: the feature matrix passed to the fit consists, for every input
row, of all polynomial combinations of the `value` and `age` features
up to degree 2: constant, value, age, value², value·age, age². -/
theorem spec_c6_poly_degree2 (vs ages : List ℚ) :
    polyFitTransform 2 (List.zipWith (fun v a => [v, a]) vs ages)
      = List.zipWith (fun v a => [1, v, a, v * v, v * a, a * a]) vs ages := by
  induction vs generalizing ages with
  | nil => rfl
  | cons x xs ih =>
    cases ages with
    | nil => rfl
    | cons b bs =>
      have ih2 := ih bs
      simp only [polyFitTransform] at ih2 ⊢
      simp only [List.zipWith_cons_cons, List.map_cons, polyRow_pair, ih2]

/-- C4: for a fixed input file system, two runs print identical results
— the whole computation, the least-squares fit included, is a
deterministic function of the input. -/
theorem spec_c4_deterministic (fs : String → Option Table)
    (o1 o2 : Except Err (List String))
    (h1 : run fs = o1) (h2 : run fs = o2) : o1 = o2 :=
  h1 ▸ h2 ▸ rfl

/-- Witness for C4 at the concrete sample file system. -/
theorem spec_c4_witness : run sampleFS = run sampleFS :=
  spec_c4_deterministic sampleFS (run sampleFS) (run sampleFS) rfl rfl

/-- C10: the input path is hard-coded to `sample.csv` — the run depends
on the file system only through that one entry, so no input can
redirect the program to another file. -/
theorem spec_c10_hardcoded_path (fs1 fs2 : String → Option Table)
    (h : fs1 "sample.csv" = fs2 "sample.csv") : run fs1 = run fs2 := by
  unfold run readCsv
  rw [h]

/-- Witness for C10: two file systems that agree at `sample.csv` but
differ everywhere else produce the same run. -/
theorem spec_c10_witness :
    run sampleFS = run (fun p => if p = "sample.csv" then some sampleTable
      else some tableNoName) :=
  spec_c10_hardcoded_path sampleFS
    (fun p => if p = "sample.csv" then some sampleTable else some tableNoName)
    rfl

/-- C2: a run that does not abort writes exactly two lines, one listing
the fitted coefficients and one the intercept, and nothing else. -/
theorem spec_c2_two_output_lines (fs : String → Option Table)
    (out : List String) (h : run fs = .ok out) :
    ∃ m : Model, out = [coefLine m, interceptLine m] ∧ out.length = 2 := by
  unfold run at h
  split at h
  · simp at h
  · split at h
    · simp at h
    · split at h
      · simp at h
      · split at h
        · simp at h
        · next m _ =>
          simp only [Except.ok.injEq] at h
          exact ⟨m, h.symm, by rw [← h]; rfl⟩

/-- Witness for C2 at the concrete sample file system. -/
theorem spec_c2_witness :
    ∃ out, run sampleFS = Except.ok out ∧
      ∃ m : Model, out = [coefLine m, interceptLine m] ∧ out.length = 2 :=
  ⟨_, rfl, spec_c2_two_output_lines sampleFS _ rfl⟩

/-- C1: for every file system and environment, the script's observable
behaviour is the strictly sequential interpretation of its statements,
and on a run that does not abort the executed trace is exactly load,
extract X, extract y, transform, fit, predict, print, print — no
branching, looping, or other control flow. -/
theorem spec_c1_linear_sequence (fs : String → Option Table)
    (e : String → Option String) :
    outputOf (exec program (initState fs e)).2 = run fs ∧
      ((exec program (initState fs e)).2.isOk = true →
        (exec program (initState fs e)).1 = program) := by
  refine ⟨(run_eq_outputOf fs e).symm, ?_⟩
  rw [exec_program]
  split
  · intro h; simp [Except.isOk, Except.toBool] at h
  · split
    · intro h; simp [Except.isOk, Except.toBool] at h
    · split
      · intro h; simp [Except.isOk, Except.toBool] at h
      · split
        · intro h; simp [Except.isOk, Except.toBool] at h
        · intro _; rfl

/-- Witness for C1 at the concrete sample file system. -/
theorem spec_c1_witness :
    outputOf (exec program (initState sampleFS emptyEnv)).2 = run sampleFS ∧
      (exec program (initState sampleFS emptyEnv)).1 = program :=
  ⟨(spec_c1_linear_sequence sampleFS emptyEnv).1,
   (spec_c1_linear_sequence sampleFS emptyEnv).2 rfl⟩

/-- C3: the regression uses the `value` and `age` columns as the two
feature columns and the `name` column as the target — the run's result
is exactly the fit of `name` against the degree-2 polynomial expansion
of the `[value, age]` rows, printed. -/
theorem spec_c3_features_and_target (fs : String → Option Table)
    (t : Table) (vals ages names : List ℚ)
    (ht : fs "sample.csv" = some t)
    (hv : getColE t "value" = .ok vals)
    (ha : getColE t "age" = .ok ages)
    (hn : getColE t "name" = .ok names) :
    run fs = Except.map (fun m => [coefLine m, interceptLine m])
      (linRegFit (polyFitTransform 2
        (List.zipWith (fun v a => [v, a]) vals ages)) names) := by
  simp only [run, readCsv, selectXCols, ht, hv, ha, hn]
  cases linRegFit
      (polyFitTransform 2 (List.zipWith (fun v a => [v, a]) vals ages))
      names <;> rfl

/-- Witness for C3 at the concrete one-row sample table. -/
theorem spec_c3_witness :
    run sampleFS = Except.map (fun m => [coefLine m, interceptLine m])
      (linRegFit (polyFitTransform 2
        (List.zipWith (fun v a => [v, a]) [(1 : ℚ)] [(2 : ℚ)])) [(3 : ℚ)]) :=
  spec_c3_features_and_target sampleFS sampleTable [1] [2] [3]
    rfl rfl rfl rfl

/-- C5: the program validates nothing itself — an unreadable or
malformed file aborts with the library's read error, and a missing
`value`, `age` or `name` column aborts with the library's key error for
that column, in the order the script touches them. -/
theorem spec_c5_no_validation (fs : String → Option Table) :
    (fs "sample.csv" = none → run fs = .error .readError) ∧
    (∀ t : Table, fs "sample.csv" = some t → "value" ∉ t.header →
      run fs = .error (.keyError "value")) ∧
    (∀ t : Table, fs "sample.csv" = some t → "value" ∈ t.header →
      "age" ∉ t.header → run fs = .error (.keyError "age")) ∧
    (∀ t : Table, fs "sample.csv" = some t → "value" ∈ t.header →
      "age" ∈ t.header → "name" ∉ t.header →
      run fs = .error (.keyError "name")) := by
  refine ⟨fun h => ?_, fun t ht hv => ?_, fun t ht hv ha => ?_,
    fun t ht hv ha hn => ?_⟩
  · simp [run, readCsv, h]
  · simp [run, readCsv, ht, selectXCols, getColE_missing hv]
  · obtain ⟨v, hvo⟩ := getColE_present hv
    simp [run, readCsv, ht, selectXCols, hvo, getColE_missing ha]
  · obtain ⟨v, hvo⟩ := getColE_present hv
    obtain ⟨a, hao⟩ := getColE_present ha
    simp [run, readCsv, ht, selectXCols, hvo, hao, getColE_missing hn]

/-- Witness for C5: a missing file and each missing column abort with
the corresponding library error. -/
theorem spec_c5_witness :
    run badFS = .error .readError ∧
    run (fsOf tableNoValue) = .error (.keyError "value") ∧
    run (fsOf tableNoAge) = .error (.keyError "age") ∧
    run (fsOf tableNoName) = .error (.keyError "name") :=
  ⟨(spec_c5_no_validation badFS).1 rfl,
   (spec_c5_no_validation (fsOf tableNoValue)).2.1 tableNoValue rfl
     (by decide),
   (spec_c5_no_validation (fsOf tableNoAge)).2.2.1 tableNoAge rfl
     (by decide) (by decide),
   (spec_c5_no_validation (fsOf tableNoName)).2.2.2 tableNoName rfl
     (by decide) (by decide) (by decide)⟩

/-- C7: the only external effect is standard output — the trace and the
printed output are independent of the process environment, and a
completed run leaves the file system and environment exactly as they
were. -/
theorem spec_c7_only_stdout_effect (fs : String → Option Table)
    (e1 e2 : String → Option String) :
    (exec program (initState fs e1)).1 = (exec program (initState fs e2)).1 ∧
    outputOf (exec program (initState fs e1)).2
      = outputOf (exec program (initState fs e2)).2 ∧
    ∀ st : PState, (exec program (initState fs e1)).2 = .ok st →
      st.fs = fs ∧ st.env = e1 := by
  rw [exec_program fs e1, exec_program fs e2]
  split
  · exact ⟨rfl, rfl, fun st h => by simp at h⟩
  · split
    · exact ⟨rfl, rfl, fun st h => by simp at h⟩
    · split
      · exact ⟨rfl, rfl, fun st h => by simp at h⟩
      · split
        · exact ⟨rfl, rfl, fun st h => by simp at h⟩
        · refine ⟨rfl, rfl, fun st h => ?_⟩
          injection h with h
          rw [← h]
          exact ⟨rfl, rfl⟩

/-- Witness for C7: with the sample input, the trace and output do not
change when the environment does, and the final state returns the file
system and environment untouched. -/
theorem spec_c7_witness :
    ((exec program (initState sampleFS emptyEnv)).1
        = (exec program (initState sampleFS markedEnv)).1) ∧
    (outputOf (exec program (initState sampleFS emptyEnv)).2
        = outputOf (exec program (initState sampleFS markedEnv)).2) ∧
    ∃ st : PState, (exec program (initState sampleFS emptyEnv)).2 = .ok st ∧
      st.fs = sampleFS ∧ st.env = emptyEnv :=
  ⟨(spec_c7_only_stdout_effect sampleFS emptyEnv markedEnv).1,
   (spec_c7_only_stdout_effect sampleFS emptyEnv markedEnv).2.1,
   _, rfl,
   (spec_c7_only_stdout_effect sampleFS emptyEnv markedEnv).2.2 _ rfl⟩

/-- C8: the `y_pred = model.predict(X_poly)` line is dead code — the
program with the predict step removed produces the same output and the
same abort behaviour on every input. -/
theorem spec_c8_predict_unused (fs : String → Option Table)
    (e : String → Option String) :
    outputOf (exec programNoPredict (initState fs e)).2
      = outputOf (exec program (initState fs e)).2 := by
  rw [exec_program, exec_programNoPredict]
  split
  · rfl
  · split
    · rfl
    · split
      · rfl
      · split
        · rfl
        · rfl

/-- A successful column selection yields exactly the `[value, age]`
pairing of two column vectors. -/
lemma selectXCols_ok {t : Table} {X : List (List ℚ)}
    (h : selectXCols t = .ok X) :
    ∃ vals ages, X = List.zipWith (fun v a => [v, a]) vals ages := by
  unfold selectXCols at h
  split at h
  · simp at h
  · split at h
    · simp at h
    · simp only [Except.ok.injEq] at h
      exact ⟨_, _, h.symm⟩

/-- Shape of a successful fit in the pipeline: six coefficients (one
per degree-2 monomial in two features) and a leading all-ones bias
column in the expanded matrix. -/
lemma fit_shape {t : Table} {X : List (List ℚ)} {y : List ℚ} {m : Model}
    (hx : selectXCols t = .ok X)
    (hf : linRegFit (polyFitTransform 2 X) y = .ok m) :
    m.coef.length = 6 ∧ ∀ r ∈ polyFitTransform 2 X, r.headD 0 = 1 := by
  obtain ⟨vals, ages, rfl⟩ := selectXCols_ok hx
  obtain ⟨hne, hlen⟩ := linRegFit_ok hf
  constructor
  · rw [hlen]
    cases vals with
    | nil => exact absurd rfl hne
    | cons v vt =>
      cases ages with
      | nil => exact absurd rfl hne
      | cons a at2 =>
        simp [polyFitTransform, polyRow_pair]
  · intro r hr
    simp only [polyFitTransform, List.mem_map] at hr
    obtain ⟨x, hx2, rfl⟩ := hr
    obtain ⟨v, a, rfl⟩ := mem_zipWith_pair hx2
    rw [polyRow_pair]
    rfl

/-- C9: on every run where the fit succeeds, the printed coefficient
array has exactly 6 entries — one per monomial of the degree-2
expansion of two features — and the first entry corresponds to the
expansion's constant bias column (every expanded row starts with 1),
the contribution the separately printed intercept also covers. -/
theorem spec_c9_six_coefficients (fs : String → Option Table)
    (e : String → Option String)
    (h : (exec program (initState fs e)).2.isOk = true) :
    ∃ m Xp, finalModel (exec program (initState fs e)).2 = some m ∧
      finalXpoly (exec program (initState fs e)).2 = some Xp ∧
      m.coef.length = 6 ∧ ∀ r ∈ Xp, r.headD 0 = 1 := by
  rw [exec_program] at h ⊢
  revert h
  split
  · intro h; simp [Except.isOk, Except.toBool] at h
  · split
    · intro h; simp [Except.isOk, Except.toBool] at h
    · split
      · intro h; simp [Except.isOk, Except.toBool] at h
      · split
        · intro h; simp [Except.isOk, Except.toBool] at h
        · rename_i x1 t1 heqr x2 X1 heqx x3 y1 heqy x4 m1 heqf
          intro _
          exact ⟨m1, polyFitTransform 2 X1, rfl, rfl,
            (fit_shape heqx heqf).1, (fit_shape heqx heqf).2⟩

/-- Witness for C9 at the concrete one-row sample table. -/
theorem spec_c9_witness :
    ∃ m Xp,
      finalModel (exec program (initState sampleFS emptyEnv)).2 = some m ∧
      finalXpoly (exec program (initState sampleFS emptyEnv)).2 = some Xp ∧
      m.coef.length = 6 ∧ ∀ r ∈ Xp, r.headD 0 = 1 :=
  spec_c9_six_coefficients sampleFS emptyEnv rfl

end Train
